import Mathlib

/-!
Verification development for the motion-to-notification pipeline and the
camera prebuffering engine of the repository (src/server/services/handler.service.js
and the PreBuffer service in src/unnamed/part_001).

The definitions below are a shallow embedding of the JavaScript source:
pure computations become Lean functions, the mutable per-camera state is
passed explicitly, wall-clock times are `Int` milliseconds, and the calls to
external collaborators (session gate, persistence, notification channels,
AWS Rekognition) are represented by an explicit effect trace plus input
parameters carrying the collaborators' outcomes.
-/

/-! ## Prebuffer data model (src/unnamed/part_001) -/

/-- One fragmented-MP4 box as produced by the container parser:
a type tag plus raw header and payload bytes. -/
structure Atom where
  type : String
  header : List Nat
  data : List Nat
deriving DecidableEq, Repr

/-- One entry of the per-camera ring `prebufferFmp4`: an atom plus the
wall-clock time at which it was appended (part_001 lines 93-97; the
`date` field of the source is the same instant formatted as a string and
carries no extra information, so it is not modelled separately). -/
structure RingEntry where
  atom : Atom
  time : Int
deriving DecidableEq, Repr

/-- The per-camera prebuffer state created by `start()` (part_001 lines 21-37).
Fields that the sampled code never reads (`date`, `released`, `debug`,
`ffmpegInput`, `ffmpegPath`, `cameraName`) are omitted. -/
structure PrebufferState where
  ftyp : Option Atom
  moov : Option Atom
  prebufferFmp4 : List RingEntry
  videoDuration : Int
  time : Int
  prevIdr : Int
  idrInterval : Int
deriving DecidableEq, Repr

/-- The fresh state built for a camera by `start()` before the ingestion
session is launched (part_001 lines 21-37). -/
def initState (videoDuration t0 : Int) : PrebufferState :=
  { ftyp := none
    moov := none
    prebufferFmp4 := []
    videoDuration := videoDuration
    time := t0
    prevIdr := 0
    idrInterval := 0 }

/-- The eviction while-loop of the ingestion callback (part_001 lines 100-105):
shift entries from the front while the head is older than
`now - videoDuration - 100`. -/
def evict (videoDuration now : Int) : List RingEntry → List RingEntry
  | [] => []
  | e :: rest =>
    if e.time < now - videoDuration - 100 then evict videoDuration now rest
    else e :: rest

/-- The per-atom body of the ingestion loop before eviction
(part_001 lines 74-98): stamp `time`, store the first atom as `ftyp`,
the second as `moov`, and append every later atom to the ring, updating the
IDR diagnostics on `mdat` atoms. -/
def appendPhase (s : PrebufferState) (atom : Atom) (now : Int) : PrebufferState :=
  let s0 := { s with time := now }
  if s0.ftyp.isNone then { s0 with ftyp := some atom }
  else if s0.moov.isNone then { s0 with moov := some atom }
  else
    let s1 :=
      if atom.type = "mdat" then
        { s0 with
          idrInterval := if s0.prevIdr ≠ 0 then now - s0.prevIdr else s0.idrInterval
          prevIdr := now }
      else s0
    { s1 with prebufferFmp4 := s1.prebufferFmp4 ++ [{ atom := atom, time := now }] }

/-- One full iteration of the ingestion loop for one parsed atom arriving at
wall-clock `now`: the append phase followed by the eviction pass
(part_001 lines 74-105).  The unconditional `events.emit` of line 107 is
modelled at the call sites that consume the broadcast. -/
def ingestAtom (s : PrebufferState) (atom : Atom) (now : Int) : PrebufferState :=
  let s1 := appendPhase s atom now
  { s1 with prebufferFmp4 := evict s1.videoDuration now s1.prebufferFmp4 }

/-- Run the ingestion loop over a sequence of (atom, arrival-time) pairs. -/
def ingestTrace (s : PrebufferState) : List (Atom × Int) → PrebufferState
  | [] => s
  | (a, t) :: rest => ingestTrace (ingestAtom s a t) rest

/-! ## Live replay (getVideo, part_001 lines 140-200) -/

/-- The ring-replay loop of `getVideo` (part_001 lines 159-173): iterate the
ring; skip entries older than `now - requestedPrebuffer`; while `needMoof`
is set also skip entries whose atom type is not "moof"; once an entry is
written, `needMoof` stays cleared. -/
def gateAtoms (needMoof : Bool) (bound : Int) : List RingEntry → List Atom
  | [] => []
  | e :: rest =>
    if e.time < bound then gateAtoms needMoof bound rest
    else if needMoof = true ∧ e.atom.type ≠ "moof" then gateAtoms needMoof bound rest
    else e.atom :: gateAtoms false bound rest

/-- The sequence of atoms written to the single accepted viewer connection of
`getVideo` (part_001 lines 146-175): `ftyp` if present, `moov` if present,
the gated ring replay, then every atom subsequently delivered by the
`atom` broadcast (the `live` parameter). -/
def getVideoAtoms (s : PrebufferState) (now requestedPrebuffer : Int)
    (live : List Atom) : List Atom :=
  s.ftyp.toList ++ s.moov.toList
    ++ gateAtoms true (now - requestedPrebuffer) s.prebufferFmp4
    ++ live

/-- `writeAtom` (part_001 lines 146-148) writes the atom's header bytes
followed by its payload bytes. -/
def atomBytes (a : Atom) : List Nat := a.header ++ a.data

/-- The byte sequence obtained by writing a list of atoms in order. -/
def streamBytes (atoms : List Atom) : List Nat := (atoms.map atomBytes).flatten

/-- The byte sequence written to a `getVideo` viewer connection. -/
def getVideoByteStream (s : PrebufferState) (now requestedPrebuffer : Int)
    (live : List Atom) : List Nat :=
  streamBytes (getVideoAtoms s now requestedPrebuffer live)

/-! ## stop(camera) (part_001 lines 43-55) -/

/-- The pair returned by `startPreBufferSessions` (part_001 line 137):
the ingress listener and the spawned encoder process, as opaque handles. -/
structure SessionHandles where
  server : Nat
  process : Nat
deriving DecidableEq, Repr

/-- The fields of the per-camera prebuffer object that `stop` interacts
with.  `start()` stores the handles returned by `startPreBufferSessions`
under `prebufferSession` (part_001 line 39); the object keys `process` and
`server` that `stop` reads (lines 47 and 51) are never assigned anywhere
in the source, so reading them yields `undefined`, modelled as `none`. -/
structure PrebufferCamRecord where
  prebufferSession : Option SessionHandles
  process : Option Nat
  server : Option Nat
deriving DecidableEq, Repr

/-- The record built for a camera by `start()` (part_001 lines 21-39): the
object literal contains no `process` or `server` keys, and line 39 stores the
handles of `startPreBufferSessions` under `prebufferSession`. -/
def startCamRecord (handles : SessionHandles) : PrebufferCamRecord :=
  { prebufferSession := some handles
    process := none
    server := none }

/-- The externally visible actions `stop` can perform. -/
inductive StopEffect
  | killProcess (h : Nat)
  | closeServer (h : Nat)
deriving DecidableEq, Repr

/-- `stop(cameraName)` (part_001 lines 43-55): if a prebuffer record exists
for the camera, kill `record.process` if truthy and close `record.server`
if truthy; otherwise do nothing.  The function is total, i.e. it never
errors. -/
def stop (record : Option PrebufferCamRecord) : List StopEffect :=
  match record with
  | none => []
  | some r =>
    (match r.process with
      | some p => [StopEffect.killProcess p]
      | none => []) ++
    (match r.server with
      | some sv => [StopEffect.closeServer sv]
      | none => [])

/-! ## Motion handler data model (src/server/services/handler.service.js) -/

/-- A calendar instant at the granularity relevant to the quota rollover:
`moment(x).isSame(new Date(), 'month')` compares the month together with
the year. -/
structure MDate where
  year : Int
  month : Nat
deriving DecidableEq, Repr

/-- `moment(a).isSame(b, 'month')`: same calendar month of the same year. -/
def sameMonth (a b : MDate) : Bool :=
  a.year = b.year && a.month = b.month

/-- The `SettingsDB.aws` section together with the snapshot object
`awsSettings` built from it (handler.service.js lines 42-56); the two have
the same shape, the snapshot only recomputes `contingent_left`.
A missing credential string (JS `undefined`) is modelled as `""`, which has
the same falsiness. -/
structure AwsSettings where
  active : Bool
  accessKeyId : String
  secretAccessKey : String
  region : String
  contingent_total : Int
  contingent_left : Int
  last_rekognition : Option MDate
deriving DecidableEq, Repr

/-- JS string truthiness: only the empty string (and the absent value,
modelled as `""`) is falsy. -/
def jsTruthyStr (s : String) : Bool := s ≠ ""

/-- The nested conditional computing the snapshot's `contingent_left`
(handler.service.js lines 48-54): use the stored counter only when
`last_rekognition` is set, falls in the current calendar month, and the
stored counter is `>= 0`; in every other case use `contingent_total`. -/
def computedContingentLeft (db : AwsSettings) (today : MDate) : Int :=
  match db.last_rekognition with
  | some last =>
    if sameMonth last today then
      if 0 ≤ db.contingent_left then db.contingent_left else db.contingent_total
    else db.contingent_total
  | none => db.contingent_total

/-- The `awsSettings` snapshot built at the start of `handle`
(handler.service.js lines 42-56). -/
def awsSnapshot (db : AwsSettings) (today : MDate) : AwsSettings :=
  { db with contingent_left := computedContingentLeft db today }

/-- One label record of the Rekognition response (`imageLabels.Labels`);
a list entry may be `null`, hence the `Option` at the use sites. -/
structure DetectedLabel where
  Name : String
  Confidence : Int
deriving DecidableEq, Repr

/-- The JS value stored in `motionInfo.label`: `null` when detection was not
invoked, a label name string when a label matched, `false` when detection
ran (or failed) and no label matched. -/
inductive JsLabel
  | jsNull
  | jsFalse
  | jsString (s : String)
deriving DecidableEq, Repr

/-- `label || label === null` (handler.service.js line 112): truthy string
or null passes, `false` does not. -/
def truthyOrNull : JsLabel → Bool
  | JsLabel.jsNull => true
  | JsLabel.jsFalse => false
  | JsLabel.jsString _ => true

/-- `label.toLowerCase()` on the ASCII label names involved. -/
def jsToLower (s : String) : String := ⟨s.data.map Char.toLower⟩

/-- `(labels || ['human', 'face', 'person']).map(label => label.toLowerCase())`
(handler.service.js line 229).  This line only runs with an array-valued
`labels`: an unconfigured (undefined) value has already thrown at line 224,
and a JS array — even an empty one — is truthy, so the `||` keeps the
configured array and the fallback list is dead code on every reachable
path. -/
def effLabels (labels : List String) : List String := labels.map jsToLower

/-- `confidence || 80` (handler.service.js line 230): a missing value and
the falsy number `0` both default to 80. -/
def effConfidence : Option Int → Int
  | none => 80
  | some c => if c = 0 then 80 else c

/-- The filter predicate of handler.service.js line 234:
`label && labels.includes(label.Name.toLowerCase()) && label.Confidence >= confidence`. -/
def labelPasses (labels : List String) (confidence : Int) : Option DetectedLabel → Bool
  | none => false
  | some l => labels.contains (jsToLower l.Name) && decide (confidence ≤ l.Confidence)

/-- `imageLabels.Labels.filter(...).map(label => label.Name)`
(handler.service.js lines 233-235).  The `""` branch of the extractor is
unreachable because `labelPasses` rejects `null` entries. -/
def detectedNames (labels : List String) (confidence : Int)
    (imageLabels : List (Option DetectedLabel)) : List String :=
  (imageLabels.filter (labelPasses labels confidence)).map
    (fun o => match o with
      | some l => l.Name
      | none => "")

/-- The externally visible actions of one `handle` call, in program order. -/
inductive Effect
  | requestSession
  | closeSession
  | snapshot
  | createNotification
  | sendWebhook
  | sendTelegram
  | createRecording
  | sendWebpush
  | patchAWS (contingent_left : Int) (last_rekognition : MDate)
deriving DecidableEq, Repr

/-- `handleImageDetection` (handler.service.js lines 221-265), with the
outcome of the external `rekognition.detectLabels` call passed in as an
`Except` (`.error` models a rejected promise) and `now` the wall-clock
month used for the `last_rekognition` patch.

With `labels` unconfigured (JS `undefined`), the debug statement of line
224 evaluates `labels.toString()` and throws a TypeError inside the `try`;
the catch of line 259 returns `false` before the credential check, the
service call and the settings patch are ever reached (so the line-229
default label list never applies to this case).

With `labels` configured and all three credentials truthy it runs
detection: a service failure is caught and yields `false` with no settings
patch; a successful call filters the returned labels, patches the AWS
settings with `contingent_left - 1` and `last_rekognition = now`
(lines 250-253), and returns the first surviving `Name` or `false`.

With `labels` configured but a credential missing, only the warning branch
of line 255 runs, so `detected` is still `undefined` when line 258
evaluates `detected.length`; the resulting TypeError is caught by the same
`catch` and the function returns `false`, again with no settings patch. -/
def handleImageDetection (aws : AwsSettings) (labels : Option (List String))
    (confidence : Option Int)
    (outcome : Except Unit (List (Option DetectedLabel))) (now : MDate) :
    JsLabel × List Effect :=
  match labels with
  | none => (JsLabel.jsFalse, [])
  | some configured =>
    if jsTruthyStr aws.accessKeyId && jsTruthyStr aws.secretAccessKey
        && jsTruthyStr aws.region then
      match outcome with
      | Except.ok imageLabels =>
        let detected :=
          detectedNames (effLabels configured) (effConfidence confidence)
            imageLabels
        (match detected with
          | [] => JsLabel.jsFalse
          | n :: _ => JsLabel.jsString n,
         [Effect.patchAWS (aws.contingent_left - 1) now])
      | Except.error _ => (JsLabel.jsFalse, [])
    else
      (JsLabel.jsFalse, [])

/-! ## Session gate and handler state -/

/-- Modelled from the spec: the Session Gate (`sessions.service`) is not part
of the source sample.  Per spec section 4.3, `requestSession(camera)` grants a
session iff the camera's concurrent count is below its configured maximum,
incrementing the count on a grant.  The pair returned is
(granted, new count). -/
def requestSession (maxSessions count : Nat) : Bool × Nat :=
  if count < maxSessions then (true, count + 1) else (false, count)

/-- Modelled from the spec: `closeSession(camera)` of the Session Gate
releases one session with an idempotent floor at zero (spec section 4.3);
`Nat` subtraction gives exactly that floor. -/
def closeSession (count : Nat) : Nat := count - 1

/-- The mutable state `handle` touches for the camera it was called with:
the `movementHandler[cameraName]` busy flag (handler.service.js lines 20,
87-88, 196; an absent key is falsy, modelled as `false`) and the camera's
session count held by the Session Gate. -/
structure HandlerState where
  busy : Bool
  sessions : Nat
deriving DecidableEq, Repr

/-- The `{ error, message }` object returned by `handle`
(handler.service.js lines 199-202). -/
structure HandleResult where
  error : Bool
  message : String
deriving DecidableEq, Repr

/-- Everything one `handle(trigger, cameraName, active)` call observes from
its collaborators, read-only during the call. -/
structure Env where
  cameraName : String
  /-- `CamerasModel.findByName` succeeded (lines 30-36; a throw is caught by
  the inner catch and leaves `Camera` undefined, i.e. `false` here). -/
  cameraFound : Bool
  atHome : Bool
  /-- `exclude.includes(cameraName)` on the settings snapshot. -/
  excluded : Bool
  recordingActive : Bool
  recordingType : String
  /-- Modelled from the spec: the camera's configured session maximum of the
  Session Gate. -/
  maxSessions : Nat
  /-- The raw `SettingsDB.aws` section. -/
  aws : AwsSettings
  /-- `Camera.settings.rekognition.active`. -/
  rekognitionActive : Bool
  /-- `Camera.settings.rekognition.labels`. -/
  rekLabels : Option (List String)
  /-- `Camera.settings.rekognition.confidence`. -/
  rekConfidence : Option Int
  /-- Outcome of the external `rekognition.detectLabels` call. -/
  detection : Except Unit (List (Option DetectedLabel))
  /-- The current wall-clock calendar month (`new Date()` / `moment()`). -/
  today : MDate
  /-- A rejection thrown by an awaited step inside the `try` block after the
  busy flag was taken (e.g. `getMotionInfo`); `some msg` reaches the
  top-level catch of lines 188-194. -/
  failure : Option String

/-- `Camera "<name>" not found.` (handler.service.js line 186). -/
def notFoundMessage (name : String) : String :=
  "Camera \"" ++ name ++ "\" not found."

/-- Handler.service.js line 169. -/
def busyMessage : String :=
  "Can not handle movement, another movement currently in progress for this camera."

/-- Handler.service.js line 177. -/
def atHomeMessage (name : String) : String :=
  "Skip motion trigger. At Home is active and " ++ name ++ " is not excluded!"

/-- JS template interpolation of `Camera.settings.rekognition.labels` into
the skip message of handler.service.js line 147: an array prints as its
comma-joined elements, an absent value prints as `undefined`. -/
def labelsToString : Option (List String) → String
  | none => "undefined"
  | some l => String.intercalate "," l

/-- Handler.service.js line 147. -/
def labelSkipMessage (labels : Option (List String)) : String :=
  "Skip handling movement. Configured label (" ++ labelsToString labels
    ++ ") not detected."

/-- The body of `handle` (handler.service.js lines 27-194): everything up to,
but not including, the unconditional tail of lines 196-197.  Returns the
`{error, message}` pair together with the state as left by the body and the
effect trace in program order. -/
def handleBody (env : Env) (st : HandlerState) :
    HandleResult × HandlerState × List Effect :=
  if env.cameraFound then
    -- `!atHome || (atHome && exclude.includes(cameraName))` (line 84)
    if ¬ env.atHome ∨ env.excluded then
      -- `if (!movementHandler[cameraName])` (line 87)
      if st.busy = false then
        let st1 : HandlerState := { st with busy := true }
        match env.failure with
        | some msg =>
          -- an awaited step rejected; top-level catch (lines 188-194)
          ({ error := true, message := msg }, st1, [])
        | none =>
          if env.recordingActive then
            let grant := requestSession env.maxSessions st1.sessions
            let st2 : HandlerState := { st1 with sessions := grant.2 }
            if grant.1 then
              let awsSet := awsSnapshot env.aws env.today
              -- lines 98-110: the detection gate
              let gateOpen := awsSet.active
                  && decide (0 < awsSet.contingent_total)
                  && decide (0 < awsSet.contingent_left)
                  && env.rekognitionActive
              let det :=
                if gateOpen then
                  handleImageDetection awsSet env.rekLabels env.rekConfidence
                    env.detection env.today
                else (JsLabel.jsNull, [])
              let effs := [Effect.requestSession, Effect.snapshot] ++ det.2
              if truthyOrNull det.1 then
                ({ error := false
                   message :=
                     if env.recordingType = "Video" then
                       "Notification send and video stored."
                     else "Notification send and snapshot stored." },
                 st2,
                 effs ++ [Effect.createNotification, Effect.sendWebhook,
                   Effect.sendTelegram, Effect.createRecording,
                   Effect.sendTelegram, Effect.sendWebpush])
              else
                ({ error := true, message := labelSkipMessage env.rekLabels },
                 st2, effs)
            else
              ({ error := false, message := "Max sessions exceeded." }, st2,
               [Effect.requestSession])
          else
            ({ error := false, message := "Notification sent." }, st1,
             [Effect.createNotification, Effect.sendWebhook,
              Effect.sendTelegram, Effect.sendWebpush])
      else
        ({ error := true, message := busyMessage }, st, [])
    else
      ({ error := true, message := atHomeMessage env.cameraName }, st, [])
  else
    ({ error := true, message := notFoundMessage env.cameraName }, st, [])

/-- `handle(trigger, cameraName, active)` (handler.service.js lines 24-203):
the body followed by the unconditional tail of lines 196-197, which on every
path sets `movementHandler[cameraName] = false` and calls
`sessions.closeSession(cameraName)` before the result object is returned. -/
def handle (env : Env) (st : HandlerState) :
    HandleResult × HandlerState × List Effect :=
  let r := handleBody env st
  (r.1,
   { r.2.1 with busy := false, sessions := closeSession r.2.1.sessions },
   r.2.2 ++ [Effect.closeSession])

/-! ## Lemmas about the ring buffer (claim C3) -/

/-- The entries the eviction pass keeps: those at least as new as the
bound `now - videoDuration - 100`. -/
def keepEntry (bound : Int) (e : RingEntry) : Bool := decide (bound ≤ e.time)

/-- On a time-sorted ring the front-eviction while-loop removes exactly the
entries older than `now - videoDuration - 100`. -/
theorem evict_eq_filter (vd now : Int) :
    ∀ l : List RingEntry, l.Pairwise (fun a b => a.time ≤ b.time) →
      evict vd now l = l.filter (keepEntry (now - vd - 100))
  | [], _ => rfl
  | e :: rest, h => by
    rw [List.pairwise_cons] at h
    by_cases hlt : e.time < now - vd - 100
    · have hd : keepEntry (now - vd - 100) e = false := by
        unfold keepEntry
        exact decide_eq_false (not_le.mpr hlt)
      rw [show evict vd now (e :: rest) = evict vd now rest by
            conv_lhs => rw [evict]
            rw [if_pos hlt]
          ,
          evict_eq_filter vd now rest h.2, List.filter_cons, hd]
      simp
    · have hge : now - vd - 100 ≤ e.time := not_lt.mp hlt
      have hd : keepEntry (now - vd - 100) e = true := by
        unfold keepEntry
        exact decide_eq_true hge
      have hall : ∀ x ∈ rest, keepEntry (now - vd - 100) x = true := by
        intro x hx
        unfold keepEntry
        exact decide_eq_true (le_trans hge (h.1 x hx))
      rw [show evict vd now (e :: rest) = e :: rest by
            conv_lhs => rw [evict]
            rw [if_neg hlt]
          ,
          List.filter_cons, hd, List.filter_eq_self.mpr hall]
      simp

theorem appendPhase_ring (s : PrebufferState) (a : Atom) (now : Int) :
    (appendPhase s a now).prebufferFmp4 = s.prebufferFmp4
    ∨ (appendPhase s a now).prebufferFmp4
        = s.prebufferFmp4 ++ [{ atom := a, time := now }] := by
  unfold appendPhase
  by_cases h1 : s.ftyp.isNone <;> by_cases h2 : s.moov.isNone <;>
    by_cases h3 : a.type = "mdat" <;> simp [h1, h2, h3]

theorem appendPhase_videoDuration (s : PrebufferState) (a : Atom) (now : Int) :
    (appendPhase s a now).videoDuration = s.videoDuration := by
  unfold appendPhase
  by_cases h1 : s.ftyp.isNone <;> by_cases h2 : s.moov.isNone <;>
    by_cases h3 : a.type = "mdat" <;> simp [h1, h2, h3]

theorem appendPhase_time (s : PrebufferState) (a : Atom) (now : Int) :
    (appendPhase s a now).time = now := by
  unfold appendPhase
  by_cases h1 : s.ftyp.isNone <;> by_cases h2 : s.moov.isNone <;>
    by_cases h3 : a.type = "mdat" <;> simp [h1, h2, h3]

theorem ingestAtom_ring (s : PrebufferState) (a : Atom) (now : Int) :
    (ingestAtom s a now).prebufferFmp4
      = evict s.videoDuration now (appendPhase s a now).prebufferFmp4 := by
  have h : (ingestAtom s a now).prebufferFmp4
      = evict (appendPhase s a now).videoDuration now
          (appendPhase s a now).prebufferFmp4 := rfl
  rw [h, appendPhase_videoDuration]

theorem ingestAtom_time (s : PrebufferState) (a : Atom) (now : Int) :
    (ingestAtom s a now).time = now := by
  have h : (ingestAtom s a now).time = (appendPhase s a now).time := rfl
  rw [h, appendPhase_time]

theorem ingestAtom_videoDuration (s : PrebufferState) (a : Atom) (now : Int) :
    (ingestAtom s a now).videoDuration = s.videoDuration := by
  have h : (ingestAtom s a now).videoDuration
      = (appendPhase s a now).videoDuration := rfl
  rw [h, appendPhase_videoDuration]

/-- The state invariant maintained by the ingestion loop: the ring is
insertion-ordered by non-decreasing time, no entry is newer than the last
arrival, and no entry is older than the eviction bound of the last pass. -/
def RingInv (s : PrebufferState) : Prop :=
  s.prebufferFmp4.Pairwise (fun a b => a.time ≤ b.time)
  ∧ (∀ e ∈ s.prebufferFmp4, e.time ≤ s.time)
  ∧ (∀ e ∈ s.prebufferFmp4, s.time - s.videoDuration - 100 ≤ e.time)

theorem appendPhase_sorted (s : PrebufferState) (a : Atom) (now : Int)
    (hs : s.prebufferFmp4.Pairwise (fun x y => x.time ≤ y.time))
    (hup : ∀ e ∈ s.prebufferFmp4, e.time ≤ s.time) (ht : s.time ≤ now) :
    (appendPhase s a now).prebufferFmp4.Pairwise (fun x y => x.time ≤ y.time) := by
  rcases appendPhase_ring s a now with h | h <;> rw [h]
  · exact hs
  · refine List.pairwise_append.mpr ⟨hs, List.pairwise_singleton _ _, ?_⟩
    intro x hx y hy
    simp only [List.mem_singleton] at hy
    subst hy
    exact le_trans (hup x hx) ht

theorem appendPhase_upper (s : PrebufferState) (a : Atom) (now : Int)
    (hup : ∀ e ∈ s.prebufferFmp4, e.time ≤ s.time) (ht : s.time ≤ now) :
    ∀ e ∈ (appendPhase s a now).prebufferFmp4, e.time ≤ now := by
  rcases appendPhase_ring s a now with h | h <;> rw [h]
  · exact fun e he => le_trans (hup e he) ht
  · intro e he
    rcases List.mem_append.mp he with he | he
    · exact le_trans (hup e he) ht
    · simp only [List.mem_singleton] at he
      subst he
      exact le_refl _

theorem step_inv (s : PrebufferState) (a : Atom) (now : Int)
    (hinv : RingInv s) (ht : s.time ≤ now) : RingInv (ingestAtom s a now) := by
  obtain ⟨hs, hup, _⟩ := hinv
  have hsorted := appendPhase_sorted s a now hs hup ht
  have hupper := appendPhase_upper s a now hup ht
  have hev := evict_eq_filter s.videoDuration now _ hsorted
  refine ⟨?_, ?_, ?_⟩
  · rw [ingestAtom_ring, hev]
    exact hsorted.sublist (List.filter_sublist _)
  · intro e he
    rw [ingestAtom_ring, hev] at he
    rw [ingestAtom_time]
    exact hupper e (List.mem_of_mem_filter he)
  · intro e he
    rw [ingestAtom_ring, hev] at he
    rw [ingestAtom_time, ingestAtom_videoDuration]
    have := List.of_mem_filter he
    simpa [keepEntry] using this

theorem ingestTrace_inv : ∀ (tr : List (Atom × Int)) (s : PrebufferState),
    RingInv s → (s.time :: tr.map Prod.snd).Pairwise (· ≤ ·) →
    RingInv (ingestTrace s tr)
  | [], _, h, _ => h
  | (a, t) :: rest, s, h, hp => by
    rw [List.map_cons, List.pairwise_cons] at hp
    have hst : s.time ≤ t := hp.1 t (by simp)
    refine ingestTrace_inv rest (ingestAtom s a t) (step_inv s a t h hst) ?_
    rw [ingestAtom_time]
    exact hp.2

theorem ingestTrace_videoDuration : ∀ (tr : List (Atom × Int)) (s : PrebufferState),
    (ingestTrace s tr).videoDuration = s.videoDuration
  | [], _ => rfl
  | (a, t) :: rest, s => by
    rw [ingestTrace, ingestTrace_videoDuration rest, ingestAtom_videoDuration]

theorem ingestTrace_time : ∀ (tr : List (Atom × Int)) (s : PrebufferState),
    (ingestTrace s tr).time = tr.foldl (fun _ p => p.2) s.time
  | [], _ => rfl
  | (a, t) :: rest, s => by
    rw [ingestTrace, ingestTrace_time rest, List.foldl_cons, ingestAtom_time]

theorem foldl_snd_mem : ∀ (tr : List (Atom × Int)) (t0 : Int),
    tr.foldl (fun _ p => p.2) t0 ∈ t0 :: tr.map Prod.snd
  | [], t0 => by simp
  | (a, t) :: rest, t0 => by
    rw [List.foldl_cons]
    have := foldl_snd_mem rest t
    simp only [List.map_cons]
    rcases List.mem_cons.mp this with h | h
    · exact List.mem_cons.mpr (Or.inr (by simp [h]))
    · exact List.mem_cons.mpr (Or.inr (List.mem_cons.mpr (Or.inr h)))

/-! ## Lemmas about the live replay gate (claim C4) -/

theorem gateAtoms_false_eq (bound : Int) :
    ∀ l : List RingEntry, gateAtoms false bound l
      = (l.filter (keepEntry bound)).map (fun e => e.atom)
  | [] => rfl
  | e :: rest => by
    by_cases h : e.time < bound
    · have hd : keepEntry bound e = false := by
        unfold keepEntry
        exact decide_eq_false (not_le.mpr h)
      rw [show gateAtoms false bound (e :: rest) = gateAtoms false bound rest by
            conv_lhs => rw [gateAtoms]
            rw [if_pos h]
          , gateAtoms_false_eq bound rest, List.filter_cons, hd]
      simp
    · have hd : keepEntry bound e = true := by
        unfold keepEntry
        exact decide_eq_true (not_lt.mp h)
      rw [show gateAtoms false bound (e :: rest)
            = e.atom :: gateAtoms false bound rest by
            conv_lhs => rw [gateAtoms]
            rw [if_neg h]
            simp
          , gateAtoms_false_eq bound rest, List.filter_cons, hd]
      simp

theorem gateAtoms_true_eq (bound : Int) :
    ∀ l : List RingEntry, gateAtoms true bound l
      = ((l.filter (keepEntry bound)).dropWhile
          (fun e => !(e.atom.type == "moof"))).map (fun e => e.atom)
  | [] => rfl
  | e :: rest => by
    by_cases h : e.time < bound
    · have hd : keepEntry bound e = false := by
        unfold keepEntry
        exact decide_eq_false (not_le.mpr h)
      rw [show gateAtoms true bound (e :: rest) = gateAtoms true bound rest by
            conv_lhs => rw [gateAtoms]
            rw [if_pos h]
          , gateAtoms_true_eq bound rest, List.filter_cons, hd]
      simp
    · have hd : keepEntry bound e = true := by
        unfold keepEntry
        exact decide_eq_true (not_lt.mp h)
      by_cases hm : e.atom.type = "moof"
      · rw [show gateAtoms true bound (e :: rest)
              = e.atom :: gateAtoms false bound rest by
              conv_lhs => rw [gateAtoms]
              rw [if_neg h, if_neg (by simp [hm])]
            , gateAtoms_false_eq bound rest, List.filter_cons, hd]
        simp [List.dropWhile_cons, hm]
      · rw [show gateAtoms true bound (e :: rest) = gateAtoms true bound rest by
              conv_lhs => rw [gateAtoms]
              rw [if_neg h, if_pos (by simp [hm])]
            , gateAtoms_true_eq bound rest, List.filter_cons, hd]
        simp [List.dropWhile_cons, hm]

theorem appendPhase_ftyp (s : PrebufferState) (a : Atom) (now : Int) :
    (appendPhase s a now).ftyp = some (s.ftyp.getD a) := by
  cases hf : s.ftyp
  · simp [appendPhase, hf]
  · by_cases h2 : s.moov.isNone <;> by_cases h3 : a.type = "mdat" <;>
      simp [appendPhase, hf, h2, h3]

theorem appendPhase_moov (s : PrebufferState) (a : Atom) (now : Int) :
    (appendPhase s a now).moov
      = (if s.ftyp.isSome then some (s.moov.getD a) else s.moov) := by
  cases hf : s.ftyp <;> cases hm : s.moov <;> by_cases h3 : a.type = "mdat" <;>
    simp [appendPhase, hf, hm, h3]

theorem ingestAtom_ftyp (s : PrebufferState) (a : Atom) (now : Int) :
    (ingestAtom s a now).ftyp = some (s.ftyp.getD a) := by
  have h : (ingestAtom s a now).ftyp = (appendPhase s a now).ftyp := rfl
  rw [h, appendPhase_ftyp]

theorem ingestAtom_moov (s : PrebufferState) (a : Atom) (now : Int) :
    (ingestAtom s a now).moov
      = (if s.ftyp.isSome then some (s.moov.getD a) else s.moov) := by
  have h : (ingestAtom s a now).moov = (appendPhase s a now).moov := rfl
  rw [h, appendPhase_moov]

/-- C4: for every camera and every `getVideo(camera, requestedPrebuffer)`
viewer connection, the byte sequence written is exactly: the `ftyp` atom if
present, then the `moov` atom if present, then every ring entry with
`time >= now - requestedPrebuffer` starting from the first such entry whose
atom type is "moof" (in-window entries before that first "moof" are
skipped), then every atom subsequently broadcast by ingestion; and the
ingestion step sets `ftyp` and `moov` at most once (an already-set box is
never overwritten). -/
theorem c4_getVideo_stream_shape (s : PrebufferState)
    (now requestedPrebuffer : Int) (live : List Atom) (a : Atom) (t : Int) :
    getVideoByteStream s now requestedPrebuffer live
      = streamBytes (s.ftyp.toList ++ s.moov.toList
          ++ ((s.prebufferFmp4.filter (keepEntry (now - requestedPrebuffer))).dropWhile
              (fun e => !(e.atom.type == "moof"))).map (fun e => e.atom)
          ++ live)
    ∧ (ingestAtom s a t).ftyp = some (s.ftyp.getD a)
    ∧ (ingestAtom s a t).moov
        = (if s.ftyp.isSome then some (s.moov.getD a) else s.moov) := by
  refine ⟨?_, ingestAtom_ftyp s a t, ingestAtom_moov s a t⟩
  unfold getVideoByteStream getVideoAtoms
  rw [gateAtoms_true_eq]

/-- C3: for every sequence of atoms appended by one camera's ingestion loop
(with non-decreasing arrival clock), after each append and its eviction pass
the ring contains only entries with `time >= now - videoDuration - 100`, the
remaining entries are ordered by non-decreasing time, and the front
prefix-trim of the eviction pass removes exactly the too-old entries. -/
theorem c3_ring_eviction_invariant (vd t0 : Int)
    (trace pre suf : List (Atom × Int)) (a : Atom) (t : Int)
    (hmono : (t0 :: trace.map Prod.snd).Pairwise (· ≤ ·))
    (htrace : trace = pre ++ (a, t) :: suf) :
    (∀ e ∈ (ingestAtom (ingestTrace (initState vd t0) pre) a t).prebufferFmp4,
        t - vd - 100 ≤ e.time)
    ∧ (ingestAtom (ingestTrace (initState vd t0) pre) a t).prebufferFmp4.Pairwise
        (fun x y => x.time ≤ y.time)
    ∧ evict vd t (appendPhase (ingestTrace (initState vd t0) pre) a t).prebufferFmp4
        = (appendPhase (ingestTrace (initState vd t0) pre) a t).prebufferFmp4.filter
            (keepEntry (t - vd - 100)) := by
  subst htrace
  set s := ingestTrace (initState vd t0) pre with hs
  have hpre : (t0 :: pre.map Prod.snd).Pairwise (· ≤ ·) := by
    refine hmono.sublist ?_
    refine List.Sublist.cons₂ t0 ?_
    rw [List.map_append]
    exact List.sublist_append_left _ _
  have hinv : RingInv s := by
    refine ingestTrace_inv pre (initState vd t0) ?_ ?_
    · exact ⟨List.Pairwise.nil, by simp [initState], by simp [initState]⟩
    · exact hpre
  have hstime : s.time ≤ t := by
    rw [hs, ingestTrace_time, show (initState vd t0).time = t0 from rfl]
    rcases List.mem_cons.mp (foldl_snd_mem pre t0) with h | h
    · rw [h]
      refine (List.pairwise_cons.mp hmono).1 t ?_
      rw [List.map_append]
      exact List.mem_append.mpr (Or.inr (by simp))
    · have htail := (List.pairwise_cons.mp hmono).2
      rw [List.map_append] at htail
      exact (List.pairwise_append.mp htail).2.2 _ h t (by simp)
  have hvd : s.videoDuration = vd := by
    rw [hs, ingestTrace_videoDuration]
    rfl
  have hstep := step_inv s a t hinv hstime
  have hsorted := appendPhase_sorted s a t hinv.1 hinv.2.1 hstime
  refine ⟨?_, hstep.1, ?_⟩
  · intro e he
    have hb := hstep.2.2 e he
    rw [ingestAtom_time, ingestAtom_videoDuration, hvd] at hb
    exact hb
  · rw [← hvd]
    exact evict_eq_filter s.videoDuration t _ hsorted

/-- The three initialization atoms and the data atom used by the concrete
ingestion runs below. -/
def c3pre : List (Atom × Int) :=
  [(⟨"ftyp", [0], [1]⟩, 10), (⟨"moov", [2], [3]⟩, 20), (⟨"moof", [4], [5]⟩, 30)]

def wMdat : Atom := ⟨"mdat", [6], [7]⟩

/-- Witness for C3: a concrete monotone ingestion run (three atoms, then a
fourth arriving at 2000 with `videoDuration = 1000`) satisfying the
invariant, with every hypothesis discharged by evaluation. -/
theorem c3_ring_eviction_invariant_witness :
    (∀ e ∈ (ingestAtom (ingestTrace (initState 1000 0) c3pre) wMdat
        2000).prebufferFmp4, 2000 - 1000 - 100 ≤ e.time)
    ∧ (ingestAtom (ingestTrace (initState 1000 0) c3pre) wMdat
        2000).prebufferFmp4.Pairwise (fun x y => x.time ≤ y.time)
    ∧ evict 1000 2000 (appendPhase (ingestTrace (initState 1000 0) c3pre) wMdat
          2000).prebufferFmp4
        = (appendPhase (ingestTrace (initState 1000 0) c3pre) wMdat
            2000).prebufferFmp4.filter (keepEntry (2000 - 1000 - 100)) :=
  c3_ring_eviction_invariant 1000 0 (c3pre ++ [(wMdat, 2000)]) c3pre [] wMdat 2000
    (by decide) rfl

/-- C9: evaluation of the code at the failing input.  After `start()` has
stored the running encoder/listener handles (under `prebufferSession`),
`stop` performs no kill and no close — the fields `process` and `server` it
reads were never assigned — and calling it with no state is a no-op as
well.  The claim says `stop` terminates the handles produced by
`startPreBufferSessions`; the code does not. -/
theorem c9_stop_kills_nothing :
    stop (some (startCamRecord ⟨1, 2⟩)) = []
    ∧ (startCamRecord ⟨1, 2⟩).prebufferSession = some ⟨1, 2⟩
    ∧ stop none = [] := by
  decide

/-! ## Concrete sample data shared by the handler theorems -/

/-- Build an `Env` from its fields in declaration order (a convenience
constructor for theorem statements). -/
def mkEnv (name : String) (found aH ex recA : Bool) (recT : String)
    (maxS : Nat) (aw : AwsSettings) (rekA : Bool) (rekL : Option (List String))
    (rekC : Option Int) (det : Except Unit (List (Option DetectedLabel)))
    (td : MDate) (fl : Option String) : Env :=
  { cameraName := name
    cameraFound := found
    atHome := aH
    excluded := ex
    recordingActive := recA
    recordingType := recT
    maxSessions := maxS
    aws := aw
    rekognitionActive := rekA
    rekLabels := rekL
    rekConfidence := rekC
    detection := det
    today := td
    failure := fl }

def sampleAws : AwsSettings :=
  { active := true
    accessKeyId := "AKIA"
    secretAccessKey := "secret"
    region := "eu-central-1"
    contingent_total := 1000
    contingent_left := 5
    last_rekognition := some ⟨2026, 10⟩ }

def sampleEnv : Env :=
  { cameraName := "Front Door"
    cameraFound := true
    atHome := false
    excluded := false
    recordingActive := true
    recordingType := "Snapshot"
    maxSessions := 4
    aws := sampleAws
    rekognitionActive := false
    rekLabels := none
    rekConfidence := none
    detection := Except.ok []
    today := ⟨2026, 10⟩
    failure := none }

/-- C1: evaluation of the code at the failing input.  A second `handle` call
arriving while the camera's busy flag is set (and the in-flight first
handling holds one session slot) does return the "handling in progress"
outcome, but its unconditional tail (handler.service.js lines 196-197) then
sets the shared busy flag to `false` and calls
`sessions.closeSession(camera)`, releasing the in-flight handling's lock
and session slot while that handling is still running — contradicting the
claim that the rejected call leaves the in-flight state unchanged. -/
theorem c1_busy_rejection_clears_inflight_state :
    (handle sampleEnv { busy := true, sessions := 1 }).1
        = { error := true, message := busyMessage }
    ∧ (handle sampleEnv { busy := true, sessions := 1 }).2.1
        = { busy := false, sessions := 0 }
    ∧ Effect.closeSession ∈ (handle sampleEnv { busy := true, sessions := 1 }).2.2 := by
  decide

/-- C2: on every branch of `handle` — success, no-record path, policy skip,
max-sessions denial, required-label-not-detected, busy rejection, camera not
found, or an exception caught at the top level — the camera's busy flag is
`false` when `handle` returns and `sessions.closeSession(camera)` has been
invoked: the cleanup of handler.service.js lines 196-197 is on every exit
path. -/
theorem c2_cleanup_on_every_path (env : Env) (st : HandlerState) :
    (handle env st).2.1.busy = false
    ∧ Effect.closeSession ∈ (handle env st).2.2 := by
  refine ⟨rfl, ?_⟩
  show Effect.closeSession ∈ (handleBody env st).2.2 ++ [Effect.closeSession]
  exact List.mem_append.mpr (Or.inr (by simp))

/-- C8 counterexample: with the camera unresolved, `handle` does produce the
`Camera "<name>" not found.` result, but — contrary to the claim that
nothing is released — `sessions.closeSession(camera)` is invoked on this
path too (the unconditional tail of handler.service.js lines 196-197): in a
state where a slot is held (a handling was in flight when the camera was
removed), the not-found call releases that slot and clears the busy flag. -/
theorem c8_notfound_invokes_closeSession :
    (handle { sampleEnv with cameraFound := false }
        { busy := true, sessions := 1 }).1
      = { error := true, message := notFoundMessage "Front Door" }
    ∧ Effect.closeSession ∈ (handle { sampleEnv with cameraFound := false }
        { busy := true, sessions := 1 }).2.2
    ∧ (handle { sampleEnv with cameraFound := false }
        { busy := true, sessions := 1 }).2.1
      = { busy := false, sessions := 0 } := by
  decide

/-- C8 amended: when the camera cannot be resolved, the result is
`{error: true, message: Camera "<name>" not found.}`, the body takes no busy
lock, performs no snapshot/notification/webhook/chat/push/recording/patch
effect and leaves the state untouched; the unconditional cleanup then sets
the busy flag to `false` and invokes `closeSession`, whose idempotent floor
at zero releases no slot when none is held (`Nat` subtraction). -/
theorem c8_notfound_amended (name : String) (aH ex recA : Bool) (recT : String)
    (maxS : Nat) (aw : AwsSettings) (rekA : Bool) (rekL : Option (List String))
    (rekC : Option Int) (det : Except Unit (List (Option DetectedLabel)))
    (td : MDate) (fl : Option String) (st : HandlerState) :
    handleBody (mkEnv name false aH ex recA recT maxS aw rekA rekL rekC det td fl) st
      = ({ error := true, message := notFoundMessage name }, st, [])
    ∧ handle (mkEnv name false aH ex recA recT maxS aw rekA rekL rekC det td fl) st
      = ({ error := true, message := notFoundMessage name },
         { busy := false, sessions := st.sessions - 1 },
         [Effect.closeSession]) := by
  exact ⟨rfl, rfl⟩

/-! ## Quota rollover (claim C5) -/

/-- C5 counterexample: a settings snapshot whose `last_rekognition` is in the
current calendar month but whose stored `contingent_left` is negative.  The
claim says the stored value is used whenever `last_rekognition` is in the
current month; the code (lines 50-52) instead resets a negative stored value
to `contingent_total`. -/
theorem c5_same_month_negative_not_stored :
    computedContingentLeft { sampleAws with contingent_left := -1 } ⟨2026, 10⟩
      = 1000
    ∧ computedContingentLeft { sampleAws with contingent_left := -1 } ⟨2026, 10⟩
      ≠ -1 := by
  decide

/-- C5 amended: the available quota is `contingent_total` whenever
`last_rekognition` is absent or not in the current calendar month (in
particular for a previous-month timestamp with stored `contingent_left = 0`);
when `last_rekognition` is in the current month the stored `contingent_left`
is used if it is `>= 0`, while a negative stored value also resets to
`contingent_total`. -/
theorem c5_quota_rollover_amended (db : AwsSettings) (today : MDate) :
    (db.last_rekognition = none →
        computedContingentLeft db today = db.contingent_total)
    ∧ (∀ last, db.last_rekognition = some last → sameMonth last today = false →
        computedContingentLeft db today = db.contingent_total)
    ∧ (∀ last, db.last_rekognition = some last → sameMonth last today = true →
        0 ≤ db.contingent_left →
        computedContingentLeft db today = db.contingent_left)
    ∧ (∀ last, db.last_rekognition = some last → sameMonth last today = true →
        db.contingent_left < 0 →
        computedContingentLeft db today = db.contingent_total) := by
  refine ⟨?_, ?_, ?_, ?_⟩
  · intro h
    simp [computedContingentLeft, h]
  · intro last h hm
    simp [computedContingentLeft, h, hm]
  · intro last h hm hl
    simp [computedContingentLeft, h, hm, hl]
  · intro last h hm hl
    simp [computedContingentLeft, h, hm, not_le.mpr hl]

/-- Witness for C5: `last_rekognition` in 2026-09, current month 2026-10,
stored `contingent_left = 0`; the computed quota is the full
`contingent_total = 1000`, not 0. -/
theorem c5_quota_rollover_amended_witness :
    computedContingentLeft
        { sampleAws with contingent_left := 0,
                         last_rekognition := some ⟨2026, 9⟩ } ⟨2026, 10⟩
      = 1000 :=
  (c5_quota_rollover_amended
      { sampleAws with contingent_left := 0, last_rekognition := some ⟨2026, 9⟩ }
      ⟨2026, 10⟩).2.1 ⟨2026, 9⟩ rfl (by decide)

/-! ## Detection gating (claims C6, C7, C10) -/

theorem labelPasses_none (labels : List String) (conf : Int) :
    labelPasses labels conf none = false := rfl

theorem labelPasses_some (labels : List String) (conf : Int) (l : DetectedLabel) :
    labelPasses labels conf (some l)
      = (labels.contains (jsToLower l.Name) && decide (conf ≤ l.Confidence)) := rfl

/-- The "first surviving name, else false" computed by the filter/map/head
pipeline of handler.service.js lines 233-258 equals a direct first-match
search over the non-null labels of the response. -/
theorem firstMatch_eq (labels : List String) (conf : Int) :
    ∀ ls : List (Option DetectedLabel),
      (match detectedNames labels conf ls with
        | [] => JsLabel.jsFalse
        | n :: _ => JsLabel.jsString n)
      = (match (ls.filterMap id).find? (fun l =>
            labels.contains (jsToLower l.Name) && decide (conf ≤ l.Confidence)) with
          | some l => JsLabel.jsString l.Name
          | none => JsLabel.jsFalse)
  | [] => rfl
  | none :: rest => by
    have h1 : detectedNames labels conf (none :: rest)
        = detectedNames labels conf rest := by
      simp [detectedNames, List.filter_cons, labelPasses_none]
    have h2 : (none :: rest).filterMap (id : Option DetectedLabel → Option DetectedLabel)
        = rest.filterMap id := by
      simp [List.filterMap_cons]
    rw [h1, h2]
    exact firstMatch_eq labels conf rest
  | some l :: rest => by
    by_cases h : (labels.contains (jsToLower l.Name) && decide (conf ≤ l.Confidence)) = true
    · have h1 : detectedNames labels conf (some l :: rest)
          = l.Name :: detectedNames labels conf rest := by
        unfold detectedNames
        rw [List.filter_cons, labelPasses_some, h]
        simp
      have h2 : (some l :: rest).filterMap (id : Option DetectedLabel → Option DetectedLabel)
          = l :: rest.filterMap id := by
        simp [List.filterMap_cons]
      have hfind : (l :: rest.filterMap id).find? (fun x =>
          labels.contains (jsToLower x.Name) && decide (conf ≤ x.Confidence)) = some l :=
        List.find?_cons_of_pos _ h
      rw [h1, h2, hfind]
    · have hf := eq_false_of_ne_true h
      have h1 : detectedNames labels conf (some l :: rest)
          = detectedNames labels conf rest := by
        unfold detectedNames
        rw [List.filter_cons, labelPasses_some, hf]
        simp
      have h2 : (some l :: rest).filterMap (id : Option DetectedLabel → Option DetectedLabel)
          = l :: rest.filterMap id := by
        simp [List.filterMap_cons]
      have hfind : (l :: rest.filterMap id).find? (fun x =>
          labels.contains (jsToLower x.Name) && decide (conf ≤ x.Confidence))
          = (rest.filterMap id).find? (fun x =>
              labels.contains (jsToLower x.Name) && decide (conf ≤ x.Confidence)) :=
        List.find?_cons_of_neg _ (fun hc => h hc)
      rw [h1, h2, hfind]
      exact firstMatch_eq labels conf rest

/-- C6 counterexample: for configured labels `["person"]`, threshold 80 and
detection result `[{Name:"Person", Confidence:92}, {Name:"Car", Confidence:99}]`,
the gate returns the label under its original casing `"Person"`
(`detected[0]` is `label.Name` as returned by the service, line 235), not
the lower-cased `"person"` the claim states. -/
theorem c6_returns_original_casing :
    (handleImageDetection sampleAws (some ["person"]) (some 80)
        (Except.ok [some ⟨"Person", 92⟩, some ⟨"Car", 99⟩]) ⟨2026, 10⟩).1
      = JsLabel.jsString "Person"
    ∧ (handleImageDetection sampleAws (some ["person"]) (some 80)
        (Except.ok [some ⟨"Person", 92⟩, some ⟨"Car", 99⟩]) ⟨2026, 10⟩).1
      ≠ JsLabel.jsString "person" := by
  decide

/-- C6 amended: with labels configured and credentials present, the gate
lower-cases the configured labels, defaults the confidence threshold to 80
when unset, and returns the first returned label whose lower-cased name is
configured and whose confidence meets the threshold — under its original
casing — or `false` when none matches; with no labels configured the gate
throws at the logging statement (line 224) before any service call and
returns `false`, so the line-229 default list `["human", "face", "person"]`
never applies.  On the claim's example it returns `"Person"` (matching
"Person" case-insensitively and ignoring "Car"). -/
theorem c6_detection_gating_amended (aws : AwsSettings)
    (configured : List String) (confidence : Option Int)
    (ls : List (Option DetectedLabel)) (now : MDate)
    (h1 : jsTruthyStr aws.accessKeyId = true)
    (h2 : jsTruthyStr aws.secretAccessKey = true)
    (h3 : jsTruthyStr aws.region = true) :
    (handleImageDetection aws (some configured) confidence (Except.ok ls) now).1
      = (match (ls.filterMap id).find? (fun l =>
            (configured.map jsToLower).contains (jsToLower l.Name)
            && decide (effConfidence confidence ≤ l.Confidence)) with
          | some l => JsLabel.jsString l.Name
          | none => JsLabel.jsFalse)
    ∧ (∀ (aws2 : AwsSettings) (conf2 : Option Int)
          (out2 : Except Unit (List (Option DetectedLabel))) (now2 : MDate),
        handleImageDetection aws2 none conf2 out2 now2 = (JsLabel.jsFalse, []))
    ∧ (handleImageDetection sampleAws (some ["person"]) (some 80)
        (Except.ok [some ⟨"Person", 92⟩, some ⟨"Car", 99⟩]) ⟨2026, 10⟩).1
      = JsLabel.jsString "Person" := by
  refine ⟨?_, fun aws2 conf2 out2 now2 => rfl, by decide⟩
  have hc : (jsTruthyStr aws.accessKeyId && jsTruthyStr aws.secretAccessKey
      && jsTruthyStr aws.region) = true := by
    rw [h1, h2, h3]
    rfl
  simp only [handleImageDetection, hc, if_true]
  exact firstMatch_eq (effLabels configured) (effConfidence confidence) ls

/-- Witness for C6 (amended): the general first-match form instantiated at
the claim's concrete example, with the credential hypotheses discharged by
evaluation. -/
theorem c6_detection_gating_amended_witness :
    (handleImageDetection sampleAws (some ["person"]) (some 80)
        (Except.ok [some ⟨"Person", 92⟩, some ⟨"Car", 99⟩]) ⟨2026, 10⟩).1
      = (match ([some ⟨"Person", 92⟩,
            some (⟨"Car", 99⟩ : DetectedLabel)].filterMap id).find? (fun l =>
            ((["person"] : List String).map jsToLower).contains
              (jsToLower l.Name)
            && decide (effConfidence (some 80) ≤ l.Confidence)) with
          | some l => JsLabel.jsString l.Name
          | none => JsLabel.jsFalse)
    ∧ handleImageDetection sampleAws none (some 80)
        (Except.ok [some ⟨"Person", 92⟩, some ⟨"Car", 99⟩]) ⟨2026, 10⟩
      = (JsLabel.jsFalse, []) :=
  ⟨(c6_detection_gating_amended sampleAws ["person"] (some 80)
      [some ⟨"Person", 92⟩, some ⟨"Car", 99⟩] ⟨2026, 10⟩
      (by decide) (by decide) (by decide)).1,
   (c6_detection_gating_amended sampleAws ["person"] (some 80)
      [some ⟨"Person", 92⟩, some ⟨"Car", 99⟩] ⟨2026, 10⟩
      (by decide) (by decide) (by decide)).2.1 sampleAws (some 80)
      (Except.ok [some ⟨"Person", 92⟩, some ⟨"Car", 99⟩]) ⟨2026, 10⟩⟩

/-- C7: every detection-service call happens with labels configured (an
unconfigured labels value throws at line 224 before `detectLabels` is ever
reached, returning `false` with no patch); with credentials present, every
successful call — whether or not any label matched — patches the AWS
settings with `contingent_left - 1` and `last_rekognition = now`
(handler.service.js lines 250-253); a failing call is caught, the function
returns `false`, and no settings patch happens. -/
theorem c7_quota_patch_on_success (aws : AwsSettings)
    (configured : List String) (confidence : Option Int) (now : MDate)
    (hcreds : (jsTruthyStr aws.accessKeyId && jsTruthyStr aws.secretAccessKey
        && jsTruthyStr aws.region) = true) :
    (∀ ls, (handleImageDetection aws (some configured) confidence
        (Except.ok ls) now).2
        = [Effect.patchAWS (aws.contingent_left - 1) now])
    ∧ handleImageDetection aws (some configured) confidence
        (Except.error ()) now
      = (JsLabel.jsFalse, []) := by
  constructor
  · intro ls
    simp only [handleImageDetection, hcreds, if_true]
  · simp only [handleImageDetection, hcreds, if_true]

/-- Witness for C7: a concrete successful call (configured empty label
list, so nothing can match) still patches the quota, and a concrete
failing call returns `false` with no patch. -/
theorem c7_quota_patch_on_success_witness :
    (handleImageDetection sampleAws (some []) none (Except.ok []) ⟨2026, 10⟩).2
      = [Effect.patchAWS (sampleAws.contingent_left - 1) ⟨2026, 10⟩]
    ∧ handleImageDetection sampleAws (some []) none (Except.error ()) ⟨2026, 10⟩
      = (JsLabel.jsFalse, []) :=
  ⟨(c7_quota_patch_on_success sampleAws [] none ⟨2026, 10⟩ (by decide)).1 [],
   (c7_quota_patch_on_success sampleAws [] none ⟨2026, 10⟩ (by decide)).2⟩

/-- C10: with image recognition active for the camera, quota available and
the detection gate open, but one of the AWS credentials missing,
`handleImageDetection` returns `false` (not `null`: the warn branch leaves
`detected` undefined and the final `detected.length` throws a TypeError that
the catch converts to `false`) with no settings patch; `handle` therefore
takes the required-label-not-detected skip outcome and patches nothing. -/
theorem c10_missing_credentials_skips (aw : AwsSettings)
    (rekL : Option (List String)) (rekC : Option Int)
    (det : Except Unit (List (Option DetectedLabel))) (td : MDate)
    (name recT : String) (maxS : Nat) (st : HandlerState)
    (hbusy : st.busy = false) (hsess : st.sessions < maxS)
    (hcreds : (jsTruthyStr aw.accessKeyId && jsTruthyStr aw.secretAccessKey
        && jsTruthyStr aw.region) = false)
    (hact : aw.active = true) (htot : 0 < aw.contingent_total)
    (hleft : 0 < computedContingentLeft aw td) :
    handleImageDetection (awsSnapshot aw td) rekL rekC det td
        = (JsLabel.jsFalse, [])
    ∧ (handle (mkEnv name true false false true recT maxS aw true rekL rekC
          det td none) st).1
        = { error := true, message := labelSkipMessage rekL }
    ∧ ∀ l d, Effect.patchAWS l d ∉
        (handle (mkEnv name true false false true recT maxS aw true rekL rekC
          det td none) st).2.2 := by
  have hd : handleImageDetection (awsSnapshot aw td) rekL rekC det td
      = (JsLabel.jsFalse, []) := by
    have hc : (jsTruthyStr (awsSnapshot aw td).accessKeyId
        && jsTruthyStr (awsSnapshot aw td).secretAccessKey
        && jsTruthyStr (awsSnapshot aw td).region) = false := hcreds
    cases rekL <;> cases det <;> simp [handleImageDetection, hc]
  have hbody : handleBody (mkEnv name true false false true recT maxS aw true
      rekL rekC det td none) st
      = ({ error := true, message := labelSkipMessage rekL },
         { st with busy := true, sessions := st.sessions + 1 },
         [Effect.requestSession, Effect.snapshot]) := by
    have hA : (awsSnapshot aw td).active = true := hact
    have hT : (0 : Int) < (awsSnapshot aw td).contingent_total := htot
    have hL : (0 : Int) < (awsSnapshot aw td).contingent_left := hleft
    simp [handleBody, mkEnv, requestSession, truthyOrNull, hbusy, hsess, hd,
      hA, hT, hL]
  constructor
  · exact hd
  constructor
  · show (handleBody (mkEnv name true false false true recT maxS aw true rekL
      rekC det td none) st).1 = _
    rw [hbody]
  · intro l d
    show Effect.patchAWS l d ∉ (handleBody (mkEnv name true false false true
      recT maxS aw true rekL rekC det td none) st).2.2 ++ [Effect.closeSession]
    rw [hbody]
    simp

/-- Witness for C10: credentials with an empty region, recognition active,
quota available; the detection result is `false`, `handle` reports the
label-skip outcome, and no AWS patch effect occurs. -/
theorem c10_missing_credentials_skips_witness :
    handleImageDetection (awsSnapshot { sampleAws with region := "" } ⟨2026, 10⟩)
        (some ["person"]) none (Except.ok [some ⟨"Person", 92⟩]) ⟨2026, 10⟩
      = (JsLabel.jsFalse, [])
    ∧ (handle (mkEnv "Front Door" true false false true "Snapshot" 4
          { sampleAws with region := "" } true (some ["person"]) none
          (Except.ok [some ⟨"Person", 92⟩]) ⟨2026, 10⟩ none)
        { busy := false, sessions := 0 }).1
      = { error := true, message := labelSkipMessage (some ["person"]) }
    ∧ Effect.patchAWS 999 ⟨2026, 10⟩ ∉
        (handle (mkEnv "Front Door" true false false true "Snapshot" 4
          { sampleAws with region := "" } true (some ["person"]) none
          (Except.ok [some ⟨"Person", 92⟩]) ⟨2026, 10⟩ none)
        { busy := false, sessions := 0 }).2.2 := by
  have h := c10_missing_credentials_skips { sampleAws with region := "" }
    (some ["person"]) none (Except.ok [some ⟨"Person", 92⟩]) ⟨2026, 10⟩
    "Front Door" "Snapshot" 4 { busy := false, sessions := 0 }
    rfl (by decide) (by decide) rfl (by decide) (by decide)
  exact ⟨h.1, h.2.1, h.2.2 999 ⟨2026, 10⟩⟩
